import Mathlib

/-!
Verification of the MAFM filesystem synchronization and indexing engine.

This file embeds the python modules `mafm/rag/sqlite.py`, `mafm/rag/vector_db.py`,
`mafm/rag/fileops.py` and `mafm/observer.py` shallowly in Lean: paths are strings,
the sqlite metadata store and the per-directory Milvus vector collections are
modelled as explicit state (an association list from file names to database
files), raised python exceptions become `Except.error`, and a python
`try/finally` block becomes a body function followed by the cleanup applied to
every exit path.  The embedding service and the Milvus engine are external
collaborators of the repository; they are modelled from the spec (the embedder
as a function parameter that can fail with `none`, the engine's nearest
neighbour search as sorting by squared euclidean distance).
-/

namespace MAFM

/-! ## Path helpers (python `os.path` / `pathlib` string operations) -/

/-- The final path component: `os.path.basename`, everything after the last slash. -/
def baseNameL (p : List Char) : List Char :=
  (p.reverse.takeWhile (fun c => c ≠ '/')).reverse

/-- `os.path.dirname`: everything before the last slash, with trailing slashes
stripped unless the head consists only of slashes. -/
def dirNameL (p : List Char) : List Char :=
  let head := (p.reverse.dropWhile (fun c => c ≠ '/')).reverse
  let stripped := (head.reverse.dropWhile (fun c => c = '/')).reverse
  if stripped = [] then head else stripped

def baseName (p : String) : String := String.mk (baseNameL p.data)

def dirName (p : String) : String := String.mk (dirNameL p.data)

/-- `pathlib.PurePath.suffix` of a file name: the part from the last dot on,
empty when the dot is the first or the last character or absent. -/
def pySuffixL (name : List Char) : List Char :=
  let rev := name.reverse
  let a := rev.takeWhile (fun c => c ≠ '.')
  match rev.dropWhile (fun c => c ≠ '.') with
  | [] => []
  | _ :: b => if a = [] ∨ b = [] then [] else '.' :: a.reverse

/-- `s.startswith(pre)` in python. -/
def strStartsWith (s pre : String) : Bool := pre.data.isPrefixOf s.data

/-- Substring test on char lists. -/
def isSubstring (pat : List Char) : List Char → Bool
  | [] => pat.isPrefixOf ([] : List Char)
  | c :: rest => pat.isPrefixOf (c :: rest) || isSubstring pat rest

/-- `pat in s` in python: substring test. -/
def containsSub (s pat : String) : Bool := isSubstring pat.data s.data

/-- `s.replace(src, dest, 1)` in python: replace the first occurrence of
`src` by `dest`, leave the rest unchanged. -/
def replaceFirstL (src dest : List Char) : List Char → List Char
  | [] => if src.isPrefixOf ([] : List Char) then dest else []
  | c :: rest =>
    if src.isPrefixOf (c :: rest) then dest ++ (c :: rest).drop src.length
    else c :: replaceFirstL src dest rest

def pyReplaceFirst (s src dest : String) : String :=
  String.mk (replaceFirstL src.data dest.data s.data)

/-! ## ContentExtractor (`mafm/rag/fileops.py`) -/

/-- `BINARY_EXTENSIONS` in `fileops.py`. -/
def BINARY_EXTENSIONS : List String :=
  [".jpg", ".jpeg", ".png", ".gif", ".bmp", ".mp4", ".avi", ".mp3", ".wav", ".pdf"]

/-- `_is_binary_file` in `fileops.py`: the lower-cased `pathlib` suffix is a
recognized binary extension. -/
def is_binary_file (path : String) : Bool :=
  BINARY_EXTENSIONS.contains (String.mk ((pySuffixL (baseNameL path.data)).map Char.toLower))

/-- Fixed-offset slicing `[content[i : i + c] for i in range(0, len(content), c)]`
(the list comprehension shared by `get_file_data` and `split_text_into_chunks`).
A chunk size of `0` raises `ValueError` in python and is outside the modelled
domain; here it yields `[]`. -/
def chunkify (c : Nat) (l : List Char) : List (List Char) :=
  if h : l = [] ∨ c = 0 then []
  else l.take c :: chunkify c (l.drop c)
termination_by l.length
decreasing_by
  push_neg at h
  have h1 : 0 < l.length := List.length_pos.mpr h.1
  have h2 : 0 < c := Nat.pos_of_ne_zero h.2
  simp only [List.length_drop]
  omega

/-- `split_text_into_chunks` in `observer.py`. -/
def split_text_into_chunks (text : List Char) (chunkSize : Nat) : List (List Char) :=
  chunkify chunkSize text

/-- `get_file_data` in `fileops.py`.  The file's decoded content is passed
explicitly (`none` models the `OSError` read-failure branch, which logs and
returns without chunks; decoding with `errors="ignore"` means the content is
an arbitrary char sequence). -/
def get_file_data (path : String) (content : Option (List Char)) (chunkSize : Nat) :
    List String :=
  let data := [path, baseName path]
  if is_binary_file path then data
  else
    match content with
    | none => data
    | some text => data ++ (chunkify chunkSize text).map String.mk

/-! ## Data model

`file_info` and `directory_structure` rows of `filesystem.db`
(`mafm/rag/sqlite.py`), Milvus vector entries (`mafm/rag/vector_db.py`),
and the file-level state: every `sqlite3.connect` / `MilvusClient` call in
the source opens a database file by name, so the state is a map from file
names to database files plus the set of advisory lock files. -/

/-- A row of the `file_info` table. -/
structure FileInfoRow where
  id : Nat
  file_path : String
  is_dir : Nat
deriving DecidableEq, Repr

/-- A row of the `directory_structure` table (the `id` column is declared
`TEXT` in the schema). -/
structure DirRow where
  record_id : Nat
  id : String
  dir_path : String
  parent_dir_path : String
deriving DecidableEq, Repr

/-- A sqlite database file.  `hasTables` records whether `CREATE TABLE` has
run on it: executing a statement against a fresh connection-created file
raises `sqlite3.OperationalError` (no such table). -/
structure MetadataDB where
  hasTables : Bool
  file_info : List FileInfoRow
  directory_structure : List DirRow
deriving DecidableEq, Repr

/-- One vector entry `{id, vector, word}` as stored in a Milvus collection;
the 384-float vector is modelled as an integer list (its values are opaque
payload for every claim). -/
structure VectorEntry where
  id : Nat
  vector : List Int
  word : String
deriving DecidableEq, Repr

/-- A Milvus database file: whether the `demo_collection` collection exists,
and its entries. -/
structure MilvusColl where
  hasCollection : Bool
  entries : List VectorEntry
deriving DecidableEq, Repr

/-- A database file on disk: either a sqlite metadata store or a Milvus
vector collection file. -/
inductive DbFile
  | meta (db : MetadataDB)
  | vector (coll : MilvusColl)
deriving DecidableEq, Repr

abbrev Files := List (String × DbFile)

/-- Process-visible state: database files by name, plus existing advisory
lock files. -/
structure SysState where
  files : Files
  lockFiles : List String
deriving DecidableEq, Repr

/-- Exceptions raised by the embedded python code. -/
inductive Err
  | indexError
  | sqliteError
  | milvusError
  | collectionMissing
deriving DecidableEq, Repr

def lookupFile (name : String) : Files → Option DbFile
  | [] => none
  | (n, f) :: rest => if n = name then some f else lookupFile name rest

def setFile (name : String) (f : DbFile) : Files → Files
  | [] => [(name, f)]
  | (n, g) :: rest => if n = name then (n, f) :: rest else (n, g) :: setFile name f rest

/-- `os.remove`: the file with that name is gone afterwards (file names are
unique on a filesystem, so dropping every binding of the name is the same
as dropping the one binding; removing a missing name is a no-op, matching
the `os.path.exists` guards at the call sites). -/
def removeFile (name : String) (files : Files) : Files :=
  files.filter (fun p => p.1 ≠ name)

/-! ## MetadataStore (`mafm/rag/sqlite.py`)

Each function opens the named file with `sqlite3.connect` (which creates an
empty table-less database file when the name is unbound), runs its SQL and
closes the connection.  Executing SQL against a file that is not a metadata
store with tables raises (`no such table` / `file is not a database`),
modelled as `Err.sqliteError`. -/

/-- `sqlite3.connect`: return the file bound to the name, creating a fresh
empty (table-less) database file when absent. -/
def sqliteConnect (dbName : String) (files : Files) : DbFile × Files :=
  match lookupFile dbName files with
  | some f => (f, files)
  | none =>
    (DbFile.meta ⟨false, [], []⟩, setFile dbName (DbFile.meta ⟨false, [], []⟩) files)

/-- `initialize_database` in `sqlite.py`: remove the file named by the
`db_name` argument if it exists, then connect to the literal name
`"filesystem.db"` and `CREATE TABLE IF NOT EXISTS` both tables there. -/
def initialize_database (dbName : String) (files : Files) : Except Err Unit × Files :=
  let files₁ := removeFile dbName files
  match sqliteConnect "filesystem.db" files₁ with
  | (DbFile.meta m, files₂) =>
    (Except.ok (), setFile "filesystem.db" (DbFile.meta { m with hasTables := true }) files₂)
  | (DbFile.vector _, files₂) => (Except.error Err.sqliteError, files₂)

/-- `get_id_by_path` in `sqlite.py`: `SELECT id FROM file_info WHERE
file_path = ?` then `rows[0][0]`, raising `IndexError` when no row matches. -/
def get_id_by_path (path dbName : String) (files : Files) : Except Err Nat × Files :=
  match sqliteConnect dbName files with
  | (DbFile.meta m, files') =>
    if m.hasTables then
      match m.file_info.filter (fun r => r.file_path == path) with
      | [] => (Except.error Err.indexError, files')
      | r :: _ => (Except.ok r.id, files')
    else (Except.error Err.sqliteError, files')
  | (DbFile.vector _, files') => (Except.error Err.sqliteError, files')

/-- `get_path_by_id` in `sqlite.py`: symmetric point lookup by id. -/
def get_path_by_id (fileId : Nat) (dbName : String) (files : Files) :
    Except Err String × Files :=
  match sqliteConnect dbName files with
  | (DbFile.meta m, files') =>
    if m.hasTables then
      match m.file_info.filter (fun r => r.id == fileId) with
      | [] => (Except.error Err.indexError, files')
      | r :: _ => (Except.ok r.file_path, files')
    else (Except.error Err.sqliteError, files')
  | (DbFile.vector _, files') => (Except.error Err.sqliteError, files')

/-- `change_file_path` in `sqlite.py`: `UPDATE file_info SET file_path = dest
WHERE file_path = src` against the file named by the mandatory `db_name`
argument. -/
def change_file_path (src dest dbName : String) (files : Files) :
    Except Err Unit × Files :=
  match sqliteConnect dbName files with
  | (DbFile.meta m, files') =>
    if m.hasTables then
      let fi := m.file_info.map
        (fun r => if r.file_path = src then { r with file_path := dest } else r)
      let m' := { m with file_info := fi }
      (Except.ok (), setFile dbName (DbFile.meta m') files')
    else (Except.error Err.sqliteError, files')
  | (DbFile.vector _, files') => (Except.error Err.sqliteError, files')

/-- Table-level effect of `change_directory_path` in `sqlite.py`:
(a) `UPDATE directory_structure SET dir_path = dest WHERE dir_path = src`;
(b) `SELECT file_path FROM file_info WHERE file_path LIKE 'src%'`, then for
each selected value one `UPDATE file_info SET file_path =
old.replace(src, dest, 1) WHERE file_path = old`, executed in order. -/
def change_directory_path_db (src dest : String) (m : MetadataDB) : MetadataDB :=
  let ds := m.directory_structure.map
    (fun e => if e.dir_path = src then { e with dir_path := dest } else e)
  let olds := (m.file_info.filter (fun r => strStartsWith r.file_path src)).map
    (fun r => r.file_path)
  let fi := olds.foldl
    (fun rows old => rows.map
      (fun r => if r.file_path = old then { r with file_path := pyReplaceFirst old src dest } else r))
    m.file_info
  { m with directory_structure := ds, file_info := fi }

/-- `change_directory_path` in `sqlite.py` (file-level wrapper). -/
def change_directory_path (src dest dbName : String) (files : Files) :
    Except Err Unit × Files :=
  match sqliteConnect dbName files with
  | (DbFile.meta m, files') =>
    if m.hasTables then
      (Except.ok (), setFile dbName (DbFile.meta (change_directory_path_db src dest m)) files')
    else (Except.error Err.sqliteError, files')
  | (DbFile.vector _, files') => (Except.error Err.sqliteError, files')

/-- `delete_directory_and_subdirectories` in `sqlite.py`: `DELETE` from both
tables `WHERE path LIKE 'dir_path%'`, always against `"filesystem.db"`. -/
def delete_directory_and_subdirectories (dirPath : String) (files : Files) :
    Except Err Unit × Files :=
  match sqliteConnect "filesystem.db" files with
  | (DbFile.meta m, files') =>
    if m.hasTables then
      let m' := { m with
        directory_structure := m.directory_structure.filter
          (fun e => !(strStartsWith e.dir_path dirPath)),
        file_info := m.file_info.filter (fun r => !(strStartsWith r.file_path dirPath)) }
      (Except.ok (), setFile "filesystem.db" (DbFile.meta m') files')
    else (Except.error Err.sqliteError, files')
  | (DbFile.vector _, files') => (Except.error Err.sqliteError, files')

/-! ## VectorStore (`mafm/rag/vector_db.py`)

Every operation opens `MilvusClient(db_name)`, works, and in a `finally`
block closes the client and calls `_delete_db_lock_file`.  Each operation is
therefore embedded as a body followed by the lock-file cleanup applied to the
body's final state on every exit path.  Opening creates the collection file
when absent, and leaves behind the advisory lock file that the cleanup must
delete (the engine is external to the repository; the lock-file location —
`.<basename>.lock` next to the collection file — is modelled from the spec's
persisted-layout section). -/

/-- The lock-file name computed by `_delete_db_lock_file`:
`f"{dir_path}/.{base_name}.lock"`. -/
def lockPath (dbName : String) : String :=
  dirName dbName ++ "/." ++ baseName dbName ++ ".lock"

/-- `_delete_db_lock_file` in `vector_db.py`: remove the lock file if it
exists (else just log). -/
def delete_db_lock_file (dbName : String) (s : SysState) : SysState :=
  { s with lockFiles := s.lockFiles.filter (fun f => f ≠ lockPath dbName) }

def addLock (p : String) (locks : List String) : List String :=
  if locks.contains p then locks else p :: locks

/-- `MilvusClient(db_name)`: creates the collection file when absent, leaves
an advisory lock file behind, fails on a file that is not a vector store. -/
def connectMilvus (dbName : String) (s : SysState) : Except Err MilvusColl × SysState :=
  let s₁ := { s with lockFiles := addLock (lockPath dbName) s.lockFiles }
  match lookupFile dbName s₁.files with
  | some (DbFile.vector c) => (Except.ok c, s₁)
  | some (DbFile.meta _) => (Except.error Err.milvusError, s₁)
  | none =>
    (Except.ok ⟨false, []⟩,
      { s₁ with files := setFile dbName (DbFile.vector ⟨false, []⟩) s₁.files })

def setVector (dbName : String) (c : MilvusColl) (s : SysState) : SysState :=
  { s with files := setFile dbName (DbFile.vector c) s.files }

/-- Body of `initialize_vector_db`: drop the collection if present, then
create it fresh; connection errors are re-raised after logging. -/
def initialize_vector_db_body (dbName : String) (s : SysState) :
    Except Err Unit × SysState :=
  match connectMilvus dbName s with
  | (Except.error e, s') => (Except.error e, s')
  | (Except.ok _, s') => (Except.ok (), setVector dbName ⟨true, []⟩ s')

/-- `initialize_vector_db` in `vector_db.py`. -/
def initialize_vector_db (dbName : String) (s : SysState) : Except Err Unit × SysState :=
  let b := initialize_vector_db_body dbName s
  (b.1, delete_db_lock_file dbName b.2)

/-- Body of `delete_vector_db`: drop the collection if present; every
exception is caught and logged. -/
def delete_vector_db_body (dbName : String) (s : SysState) :
    Except Err Unit × SysState :=
  match connectMilvus dbName s with
  | (Except.error _, s') => (Except.ok (), s')
  | (Except.ok c, s') =>
    if c.hasCollection then (Except.ok (), setVector dbName ⟨false, []⟩ s')
    else (Except.ok (), s')

/-- `delete_vector_db` in `vector_db.py`. -/
def delete_vector_db (dbName : String) (s : SysState) : Except Err Unit × SysState :=
  let b := delete_vector_db_body dbName s
  (b.1, delete_db_lock_file dbName b.2)

/-- Body of `save`: return early when the collection is missing or the
embedding service fails (`None`); otherwise insert one entry per embedded
chunk, tagged with the file id.  All exceptions are caught and logged, so
the body never propagates an error. -/
def save_body (emb : List String → Option (List (List Int))) (dbName : String)
    (fileId : Nat) (queries : List String) (s : SysState) :
    Except Err Unit × SysState :=
  match connectMilvus dbName s with
  | (Except.error _, s') => (Except.ok (), s')
  | (Except.ok c, s') =>
    if c.hasCollection then
      match emb queries with
      | none => (Except.ok (), s')
      | some vecs =>
        if vecs.length ≤ queries.length then
          let data := (vecs.zip queries).map (fun p => VectorEntry.mk fileId p.1 p.2)
          (Except.ok (), setVector dbName ⟨true, c.entries ++ data⟩ s')
        else (Except.ok (), s')
    else (Except.ok (), s')

/-- `save` in `vector_db.py` (the spec's `upsertChunks`). -/
def save (emb : List String → Option (List (List Int))) (dbName : String)
    (fileId : Nat) (queries : List String) (s : SysState) :
    Except Err Unit × SysState :=
  let b := save_body emb dbName fileId queries s
  (b.1, delete_db_lock_file dbName b.2)

/-- Body of `insert_file_embedding`: insert pre-existing entries verbatim;
all exceptions are caught and logged. -/
def insert_file_embedding_body (data : List VectorEntry) (dbName : String)
    (s : SysState) : Except Err Unit × SysState :=
  match connectMilvus dbName s with
  | (Except.error _, s') => (Except.ok (), s')
  | (Except.ok c, s') =>
    if c.hasCollection then
      (Except.ok (), setVector dbName ⟨true, c.entries ++ data⟩ s')
    else (Except.ok (), s')

/-- `insert_file_embedding` in `vector_db.py` (the spec's `reinsertEntries`). -/
def insert_file_embedding (data : List VectorEntry) (dbName : String)
    (s : SysState) : Except Err Unit × SysState :=
  let b := insert_file_embedding_body data dbName s
  (b.1, delete_db_lock_file dbName b.2)

/-- Body of `find_by_id`: query all entries with the given id, returning
`None` when the collection is missing or the result is empty.  The function
has no `except` clause, so a connection failure propagates. -/
def find_by_id_body (searchId : Nat) (dbName : String) (s : SysState) :
    Except Err (Option (List VectorEntry)) × SysState :=
  match connectMilvus dbName s with
  | (Except.error e, s') => (Except.error e, s')
  | (Except.ok c, s') =>
    if c.hasCollection then
      match c.entries.filter (fun e => e.id == searchId) with
      | [] => (Except.ok none, s')
      | res => (Except.ok (some res), s')
    else (Except.ok none, s')

/-- `find_by_id` in `vector_db.py` (the spec's `lookupByFileId`). -/
def find_by_id (searchId : Nat) (dbName : String) (s : SysState) :
    Except Err (Option (List VectorEntry)) × SysState :=
  let b := find_by_id_body searchId dbName s
  (b.1, delete_db_lock_file dbName b.2)

/-- Body of `remove_by_id`: raise when the collection is missing, else
delete every entry carrying the id.  No `except` clause, so errors
propagate. -/
def remove_by_id_body (removeId : Nat) (dbName : String) (s : SysState) :
    Except Err Unit × SysState :=
  match connectMilvus dbName s with
  | (Except.error e, s') => (Except.error e, s')
  | (Except.ok c, s') =>
    if c.hasCollection then
      (Except.ok (),
        setVector dbName ⟨true, c.entries.filter (fun e => e.id ≠ removeId)⟩ s')
    else (Except.error Err.collectionMissing, s')

/-- `remove_by_id` in `vector_db.py` (the spec's `removeByFileId`). -/
def remove_by_id (removeId : Nat) (dbName : String) (s : SysState) :
    Except Err Unit × SysState :=
  let b := remove_by_id_body removeId dbName s
  (b.1, delete_db_lock_file dbName b.2)

/-! ### Nearest-neighbour search (engine behaviour, modelled from the spec:
nearest-neighbour by distance, top `limit` per query; the concrete metric is
squared euclidean distance with a stable order). -/

def sqDist (v w : List Int) : Int :=
  ((v.zip w).map (fun p => (p.1 - p.2) * (p.1 - p.2))).sum

def insertByDist (q : List Int) (e : VectorEntry) :
    List VectorEntry → List VectorEntry
  | [] => [e]
  | x :: xs =>
    if sqDist x.vector q ≤ sqDist e.vector q then x :: insertByDist q e xs
    else e :: x :: xs

def sortByDist (q : List Int) (es : List VectorEntry) : List VectorEntry :=
  es.foldr (insertByDist q) []

/-- Ids of the `k` entries nearest to query vector `q`. -/
def topIds (q : List Int) (k : Nat) (es : List VectorEntry) : List Nat :=
  ((sortByDist q es).take k).map (fun e => e.id)

/-- The loop `[get_path_by_id(file_id, "filesystem.db") for file_id in id_list]`:
maps each id to its metadata path, propagating lookup failures. -/
def getPaths : List Nat → Files → Except Err (List String) × Files
  | [], files => (Except.ok [], files)
  | i :: rest, files =>
    match get_path_by_id i "filesystem.db" files with
    | (Except.error e, files') => (Except.error e, files')
    | (Except.ok p, files') =>
      match getPaths rest files' with
      | (Except.error e, files'') => (Except.error e, files'')
      | (Except.ok ps, files'') => (Except.ok (p :: ps), files'')

/-- Body of `search`: embed the queries, search with `limit=2`, then use only
`res[0]` — the hits of the first query — and map those ids to metadata
paths.  `res[0]` on an empty result list raises `IndexError`; there is no
`except` clause, so errors propagate. -/
def search_body (emb : List String → Option (List (List Int))) (dbName : String)
    (queryList : List String) (s : SysState) :
    Except Err (List String) × SysState :=
  match connectMilvus dbName s with
  | (Except.error e, s') => (Except.error e, s')
  | (Except.ok c, s') =>
    if c.hasCollection then
      match emb queryList with
      | none => (Except.ok [], s')
      | some vecs =>
        match vecs.map (fun v => topIds v 2 c.entries) with
        | [] => (Except.error Err.indexError, s')
        | ids :: _ =>
          match getPaths ids s'.files with
          | (Except.error e, files') => (Except.error e, { s' with files := files' })
          | (Except.ok ps, files') => (Except.ok ps, { s' with files := files' })
    else (Except.ok [], s')

/-- `search` in `vector_db.py` (the spec's `similaritySearch`). -/
def search (emb : List String → Option (List (List Int))) (dbName : String)
    (queryList : List String) (s : SysState) :
    Except Err (List String) × SysState :=
  let b := search_body emb dbName queryList s
  (b.1, delete_db_lock_file dbName b.2)

/-! ## SyncEngine (`mafm/observer.py`) -/

/-- `FileEventHandler._is_dot_file`: the basename starts with a dot. -/
def is_dot_file (path : String) : Bool :=
  match baseNameL path.data with
  | '.' :: _ => true
  | _ => false

/-- `FileEventHandler._is_ignored_file`: the path contains one of the
`IGNORED_PATTERNS` substrings. -/
def is_ignored_file (path : String) : Bool :=
  containsSub path "db-journal" || containsSub path ".db"

/-- `FileEventHandler._should_ignore`. -/
def should_ignore (path : String) : Bool :=
  is_dot_file path || is_ignored_file path

/-- `FileEventHandler.on_deleted`: drop ignored paths; for a directory drop
its vector collection and cascade-delete the metadata rows; for a file look
up its id via `get_id_by_path` (which raises `IndexError` on a path that was
never recorded — no except clause catches it here) and then remove its
vector entries. -/
def on_deleted (isDirectory : Bool) (srcPath : String) (s : SysState) :
    Except Err Unit × SysState :=
  if should_ignore srcPath then (Except.ok (), s)
  else if isDirectory then
    let dbn := srcPath ++ "/" ++ baseName srcPath ++ ".db"
    let s₁ := (delete_vector_db dbn s).2
    match delete_directory_and_subdirectories srcPath s₁.files with
    | (r, files') => (r, { s₁ with files := files' })
  else
    let dPath := dirName srcPath
    let dbn := dPath ++ "/" ++ baseName dPath ++ ".db"
    match get_id_by_path srcPath "filesystem.db" s.files with
    | (Except.error e, files') => (Except.error e, { s with files := files' })
    | (Except.ok fid, files') => remove_by_id fid dbn { s with files := files' }

/-- `FileEventHandler._move_file`: resolve the id via the old path, look up
the file's entries in the source directory's collection, reinsert them into
that same collection (`db_name` is the source collection for each call
here), remove all entries with the id, then call `change_file_path` with the
source collection path as the sqlite database name. -/
def move_file (src dest : String) (s : SysState) : Except Err Unit × SysState :=
  let dPath := dirName src
  let dbn := dPath ++ "/" ++ baseName dPath ++ ".db"
  match get_id_by_path src "filesystem.db" s.files with
  | (Except.error e, files') => (Except.error e, { s with files := files' })
  | (Except.ok fid, files') =>
    let s₁ : SysState := { s with files := files' }
    match find_by_id fid dbn s₁ with
    | (Except.error e, s₂) => (Except.error e, s₂)
    | (Except.ok odata, s₂) =>
      let s₃ := match odata with
        | some fileData => (insert_file_embedding fileData dbn s₂).2
        | none => s₂
      match remove_by_id fid dbn s₃ with
      | (Except.error e, s₄) => (Except.error e, s₄)
      | (Except.ok _, s₄) =>
        match change_file_path src dest dbn s₄.files with
        | (r, files'') => (r, { s₄ with files := files'' })

/-! ### Observables -/

/-- The entries of the collection stored at a given file name (empty when
the name is unbound or bound to a non-vector file). -/
def entriesOf (dbName : String) (s : SysState) : List VectorEntry :=
  match lookupFile dbName s.files with
  | some (DbFile.vector c) => c.entries
  | _ => []

/-- All vector entries carrying a given file id, across every collection in
the state. -/
def entriesWithId (i : Nat) (s : SysState) : List VectorEntry :=
  (s.files.map (fun p =>
    match p.2 with
    | DbFile.vector c => c.entries.filter (fun e => e.id == i)
    | DbFile.meta _ => [])).flatten

/-- Proof-internal description of the intermediate states of the sequential
`UPDATE` loop in `change_directory_path`: a row is rewritten as soon as its
path is among the already-processed selected paths. -/
def curRow (src dest : String) (done : List String) (r : FileInfoRow) : FileInfoRow :=
  if strStartsWith r.file_path src = true ∧ r.file_path ∈ done then
    { r with file_path := pyReplaceFirst r.file_path src dest }
  else r

/-- Whether an optional file is a vector-collection file (used to state, in
decidable form, that a name is not bound to a vector file). -/
def isVectorFile : Option DbFile → Bool
  | some (DbFile.vector _) => true
  | _ => false

/-! ### Concrete fixtures used by witnesses and counterexamples -/

def c1Rows : List FileInfoRow := [⟨1, "/a/b", 1⟩, ⟨2, "/a/b/f.txt", 0⟩, ⟨3, "/a/bx/file", 0⟩]

def c1DB : MetadataDB := ⟨true, c1Rows, []⟩

def c1Files : Files := [("filesystem.db", DbFile.meta c1DB)]

/-! ## Library lemmas about the embedding -/

/-! ### Chunking lemmas -/

theorem chunkify_nil (c : Nat) : chunkify c [] = [] := by
  rw [chunkify]
  simp

theorem chunkify_cons (c : Nat) (l : List Char) (hl : l ≠ []) (hc : c ≠ 0) :
    chunkify c l = l.take c :: chunkify c (l.drop c) := by
  rw [chunkify]
  simp [hl, hc]

/-- Concatenating the chunks gives back the content. -/
theorem chunkify_flatten (c : Nat) (hc : 0 < c) :
    ∀ (n : Nat) (l : List Char), l.length ≤ n → (chunkify c l).flatten = l := by
  intro n
  induction n with
  | zero =>
    intro l hl
    have : l = [] := List.eq_nil_of_length_eq_zero (Nat.le_zero.mp hl)
    simp [this, chunkify_nil]
  | succ n ih =>
    intro l hl
    by_cases hnil : l = []
    · simp [hnil, chunkify_nil]
    · rw [chunkify_cons c l hnil (Nat.pos_iff_ne_zero.mp hc)]
      have hlen : (l.drop c).length ≤ n := by
        have h1 : 0 < l.length := List.length_pos.mpr hnil
        simp only [List.length_drop]
        omega
      rw [List.flatten_cons, ih (l.drop c) hlen, List.take_append_drop]

/-- The number of chunks is `⌈L / c⌉`. -/
theorem chunkify_length (c : Nat) (hc : 0 < c) :
    ∀ (n : Nat) (l : List Char), l.length ≤ n →
      (chunkify c l).length = (l.length + c - 1) / c := by
  intro n
  induction n with
  | zero =>
    intro l hl
    have : l = [] := List.eq_nil_of_length_eq_zero (Nat.le_zero.mp hl)
    subst this
    have : c - 1 < c := by omega
    simp [chunkify_nil, Nat.div_eq_of_lt this]
  | succ n ih =>
    intro l hl
    by_cases hnil : l = []
    · subst hnil
      have : c - 1 < c := by omega
      simp [chunkify_nil, Nat.div_eq_of_lt this]
    · rw [chunkify_cons c l hnil (Nat.pos_iff_ne_zero.mp hc)]
      have hpos : 0 < l.length := List.length_pos.mpr hnil
      have hlen : (l.drop c).length ≤ n := by
        simp only [List.length_drop]; omega
      rw [List.length_cons, ih (l.drop c) hlen]
      simp only [List.length_drop]
      rcases Nat.lt_or_ge l.length c with hlt | hge
      · have h0 : l.length - c = 0 := by omega
        have h1 : (0 + c - 1) / c = 0 := Nat.div_eq_of_lt (by omega)
        have h2 : l.length + c - 1 = (l.length - 1) + c := by omega
        have h3 : l.length - 1 < c := by omega
        rw [h0, h1, h2, Nat.add_div_right _ hc, Nat.div_eq_of_lt h3]
      · have h2 : l.length - c + c - 1 = l.length - 1 := by omega
        have h3 : l.length + c - 1 = (l.length - 1) + c := by omega
        rw [h2, h3, Nat.add_div_right _ hc]

/-- Every chunk except possibly the last has length exactly `c`. -/
theorem chunkify_dropLast_length (c : Nat) (hc : 0 < c) :
    ∀ (n : Nat) (l : List Char), l.length ≤ n →
      ∀ ch ∈ (chunkify c l).dropLast, ch.length = c := by
  intro n
  induction n with
  | zero =>
    intro l hl ch hch
    have : l = [] := List.eq_nil_of_length_eq_zero (Nat.le_zero.mp hl)
    subst this
    simp [chunkify_nil] at hch
  | succ n ih =>
    intro l hl ch hch
    by_cases hnil : l = []
    · subst hnil; simp [chunkify_nil] at hch
    · rw [chunkify_cons c l hnil (Nat.pos_iff_ne_zero.mp hc)] at hch
      have hpos : 0 < l.length := List.length_pos.mpr hnil
      by_cases hrest : l.drop c = []
      · rw [hrest, chunkify_nil] at hch
        simp at hch
      · have hne : chunkify c (l.drop c) ≠ [] := by
          rw [chunkify_cons c (l.drop c) hrest (Nat.pos_iff_ne_zero.mp hc)]
          simp
        rw [List.dropLast_cons_of_ne_nil hne] at hch
        rcases List.mem_cons.mp hch with h | h
        · subst h
          have : c ≤ l.length := by
            by_contra hcon
            push_neg at hcon
            have : l.drop c = [] := List.drop_eq_nil_of_le (Nat.le_of_lt hcon)
            exact hrest this
          simp [List.length_take]
          omega
        · exact ih (l.drop c) (by simp only [List.length_drop]; omega) ch h

theorem lookupFile_setFile_self (name : String) (f : DbFile) (files : Files) :
    lookupFile name (setFile name f files) = some f := by
  induction files with
  | nil => simp [setFile, lookupFile]
  | cons p rest ih =>
    obtain ⟨n, g⟩ := p
    by_cases h : n = name
    · simp [setFile, lookupFile, h]
    · simp [setFile, lookupFile, h, ih]

theorem lookupFile_setFile_other (name m : String) (f : DbFile) (files : Files)
    (h : name ≠ m) : lookupFile name (setFile m f files) = lookupFile name files := by
  induction files with
  | nil => simp [setFile, lookupFile, Ne.symm h]
  | cons p rest ih =>
    obtain ⟨n, g⟩ := p
    by_cases hp : n = m
    · subst hp
      simp [setFile, lookupFile, Ne.symm h]
    · by_cases hn : n = name
      · simp [setFile, lookupFile, hp, hn, h]
      · simp [setFile, lookupFile, hp, hn, ih]

theorem lookupFile_removeFile_self (name : String) (files : Files) :
    lookupFile name (removeFile name files) = none := by
  induction files with
  | nil => simp [removeFile, lookupFile]
  | cons p rest ih =>
    by_cases h : p.1 = name
    · simpa [removeFile, h] using ih
    · simpa [removeFile, lookupFile, h] using ih

theorem lookupFile_removeFile_other (name m : String) (files : Files)
    (h : name ≠ m) : lookupFile name (removeFile m files) = lookupFile name files := by
  induction files with
  | nil => simp [removeFile, lookupFile]
  | cons p rest ih =>
    obtain ⟨n, g⟩ := p
    by_cases hp : n = m
    · subst hp
      simpa [removeFile, lookupFile, Ne.symm h] using ih
    · by_cases hn : n = name
      · simp [removeFile, lookupFile, hp, hn, h]
      · simpa [removeFile, lookupFile, hp, hn] using ih

theorem replaceFirstL_startsWith (src dest l : List Char)
    (h : src.isPrefixOf l = true) :
    replaceFirstL src dest l = dest ++ l.drop src.length := by
  cases l with
  | nil =>
    cases src with
    | nil => simp [replaceFirstL]
    | cons a as => simp [List.isPrefixOf] at h
  | cons c rest => simp [replaceFirstL, h]

theorem pyReplaceFirst_startsWith (p src dest : String)
    (h : strStartsWith p src = true) :
    pyReplaceFirst p src dest = String.mk (dest.data ++ p.data.drop src.data.length) := by
  unfold pyReplaceFirst
  rw [replaceFirstL_startsWith src.data dest.data p.data h]

/-- One `UPDATE ... WHERE file_path = o` step acting on the intermediate
state described by `curRow done` yields the state described by
`curRow (done ++ [o])`. -/
theorem updRow_curRow (src dest o : String) (done : List String) (r : FileInfoRow)
    (ho : strStartsWith o src = true)
    (hr : strStartsWith r.file_path src = true →
      strStartsWith (pyReplaceFirst r.file_path src dest) src = false) :
    (if (curRow src dest done r).file_path = o
      then { curRow src dest done r with file_path := pyReplaceFirst o src dest }
      else curRow src dest done r)
    = curRow src dest (done ++ [o]) r := by
  by_cases hp : strStartsWith r.file_path src = true
  · by_cases hd : r.file_path ∈ done
    · have hcur : curRow src dest done r
          = { r with file_path := pyReplaceFirst r.file_path src dest } := by
        unfold curRow
        rw [if_pos ⟨hp, hd⟩]
      have hne : (curRow src dest done r).file_path ≠ o := by
        rw [hcur]
        intro hh
        have hh' : pyReplaceFirst r.file_path src dest = o := hh
        have h2 := hr hp
        rw [hh', ho] at h2
        exact Bool.noConfusion h2
      rw [if_neg hne, hcur]
      unfold curRow
      rw [if_pos ⟨hp, List.mem_append_left [o] hd⟩]
    · have h1 : curRow src dest done r = r := by
        unfold curRow
        exact if_neg (fun hc => hd hc.2)
      by_cases he : r.file_path = o
      · rw [h1, if_pos he]
        unfold curRow
        rw [if_pos ⟨hp, List.mem_append_right done (by rw [he]; exact List.mem_singleton_self o)⟩]
        rw [← he]
      · rw [h1, if_neg he]
        unfold curRow
        rw [if_neg (fun hc => (List.mem_append.mp hc.2).elim hd
          (fun hm => he (List.eq_of_mem_singleton hm)))]
  · have h1 : curRow src dest done r = r := by
      unfold curRow
      exact if_neg (fun hc => hp hc.1)
    have he : r.file_path ≠ o := by
      intro hh
      rw [hh] at hp
      exact hp ho
    rw [h1, if_neg he]
    unfold curRow
    rw [if_neg (fun hc => hp hc.1)]

/-- The sequential `UPDATE` loop of `change_directory_path`, folded over the
selected paths, transforms the `curRow done` description into the
`curRow (done ++ olds)` description, provided every selected path matches the
source prefix and no rewritten row path matches the source prefix again. -/
theorem foldl_sqlUpdate (src dest : String) (orig : List FileInfoRow) :
    ∀ (olds done : List String),
      (∀ o ∈ olds, strStartsWith o src = true) →
      (∀ r ∈ orig, strStartsWith r.file_path src = true →
        strStartsWith (pyReplaceFirst r.file_path src dest) src = false) →
      olds.foldl
        (fun rows old => rows.map
          (fun r => if r.file_path = old
            then { r with file_path := pyReplaceFirst old src dest } else r))
        (orig.map (curRow src dest done))
      = orig.map (curRow src dest (done ++ olds)) := by
  intro olds
  induction olds with
  | nil =>
    intro done holds hrows
    simp
  | cons o rest ih =>
    intro done holds hrows
    have ho : strStartsWith o src = true := holds o (List.mem_cons_self o rest)
    rw [List.foldl_cons]
    have hmap : (orig.map (curRow src dest done)).map
        (fun r => if r.file_path = o
          then { r with file_path := pyReplaceFirst o src dest } else r)
        = orig.map (curRow src dest (done ++ [o])) := by
      rw [List.map_map]
      apply List.map_congr_left
      intro r hr
      exact updRow_curRow src dest o done r ho (hrows r hr)
    rw [hmap, ih (done ++ [o]) (fun p hp => holds p (List.mem_cons_of_mem o hp)) hrows]
    rw [List.append_assoc]
    rfl

/-- `change_directory_path_db` rewrites exactly the rows whose path has the
source as a string prefix, replacing that prefix (suffix unchanged), when no
rewritten path matches the source prefix again. -/
theorem change_directory_path_db_file_info (src dest : String) (m : MetadataDB)
    (hsafe : ∀ r ∈ m.file_info, strStartsWith r.file_path src = true →
      strStartsWith (pyReplaceFirst r.file_path src dest) src = false) :
    (change_directory_path_db src dest m).file_info
      = m.file_info.map (fun r =>
          if strStartsWith r.file_path src = true
          then { r with file_path := String.mk (dest.data ++ r.file_path.data.drop src.data.length) }
          else r) := by
  simp only [change_directory_path_db]
  have h0 : m.file_info.map (curRow src dest []) = m.file_info := by
    have : ∀ r ∈ m.file_info, curRow src dest [] r = r := by
      intro r _
      unfold curRow
      rw [if_neg (fun hc => List.not_mem_nil r.file_path hc.2)]
    rw [List.map_congr_left this]
    simp
  have holds : ∀ o ∈ (m.file_info.filter
      (fun r => strStartsWith r.file_path src)).map (fun r => r.file_path),
      strStartsWith o src = true := by
    intro o hoo
    obtain ⟨r, hrf, hre⟩ := List.mem_map.mp hoo
    obtain ⟨-, hpred⟩ := List.mem_filter.mp hrf
    rw [← hre]
    exact hpred
  have := foldl_sqlUpdate src dest m.file_info
    ((m.file_info.filter (fun r => strStartsWith r.file_path src)).map (fun r => r.file_path))
    [] holds hsafe
  rw [h0] at this
  simp only [List.nil_append] at this
  rw [this]
  apply List.map_congr_left
  intro r hr
  by_cases hp : strStartsWith r.file_path src = true
  · have hmem : r.file_path ∈ (m.file_info.filter
        (fun r => strStartsWith r.file_path src)).map (fun r => r.file_path) :=
      List.mem_map.mpr ⟨r, List.mem_filter.mpr ⟨hr, hp⟩, rfl⟩
    unfold curRow
    rw [if_pos ⟨hp, hmem⟩, if_pos hp, pyReplaceFirst_startsWith r.file_path src dest hp]
  · unfold curRow
    rw [if_neg (fun hc => hp hc.1), if_neg hp]

/-! ## Claims -/

/-- **C1** (counterexample).  The claim says a sibling path such as
`/a/bx/file`, which shares the string prefix `/a/b` without being a true
path-segment descendant, is left completely unchanged by
`change_directory_path("/a/b", "/a/c")`.  On the code it is rewritten to
`/a/cx/file`, because the `LIKE 'src%'` selection is a plain string-prefix
test. -/
theorem change_directory_path_sibling_counterexample :
    (change_directory_path "/a/b" "/a/c" "filesystem.db"
        [("filesystem.db", DbFile.meta ⟨true, [⟨1, "/a/b/file", 0⟩, ⟨2, "/a/bx/file", 0⟩], []⟩)]).2
      = [("filesystem.db", DbFile.meta ⟨true, [⟨1, "/a/c/file", 0⟩, ⟨2, "/a/cx/file", 0⟩], []⟩)]
    ∧ "/a/cx/file" ≠ "/a/bx/file" :=
  ⟨by decide, by decide⟩

/-- **C1** (amended).  `change_directory_path` rewrites every `file_info`
row whose path has the source as a *string* prefix — true path-segment
descendants and mere prefix-sharing siblings alike — replacing the first
occurrence of the prefix by the destination and keeping the suffix
unchanged; rows without the string prefix are untouched.  The description
requires that no rewritten path matches the source prefix again (otherwise
the sequential `UPDATE` loop can rewrite a row twice). -/
theorem change_directory_path_prefix_rewrite (src dest dbName : String)
    (files : Files) (m : MetadataDB)
    (hm : lookupFile dbName files = some (DbFile.meta m))
    (ht : m.hasTables = true)
    (hsafe : ∀ r ∈ m.file_info, strStartsWith r.file_path src = true →
      strStartsWith (pyReplaceFirst r.file_path src dest) src = false) :
    lookupFile dbName (change_directory_path src dest dbName files).2
      = some (DbFile.meta (change_directory_path_db src dest m))
    ∧ (change_directory_path_db src dest m).file_info
      = m.file_info.map (fun r =>
          if strStartsWith r.file_path src = true
          then { r with file_path := String.mk (dest.data ++ r.file_path.data.drop src.data.length) }
          else r) := by
  constructor
  · simp [change_directory_path, sqliteConnect, hm, ht, lookupFile_setFile_self]
  · exact change_directory_path_db_file_info src dest m hsafe

/-- **C1** (witness): the amended theorem applied to a store holding the
directory `/a/b`, a descendant `/a/b/f.txt` and a sibling `/a/bx/file`. -/
theorem change_directory_path_prefix_rewrite_witness :
    (lookupFile "filesystem.db" c1Files = some (DbFile.meta c1DB)
      ∧ c1DB.hasTables = true
      ∧ (∀ r ∈ c1DB.file_info, strStartsWith r.file_path "/a/b" = true →
          strStartsWith (pyReplaceFirst r.file_path "/a/b" "/a/c") "/a/b" = false))
    ∧ (lookupFile "filesystem.db"
          (change_directory_path "/a/b" "/a/c" "filesystem.db" c1Files).2
        = some (DbFile.meta (change_directory_path_db "/a/b" "/a/c" c1DB))
      ∧ (change_directory_path_db "/a/b" "/a/c" c1DB).file_info
        = c1DB.file_info.map (fun r =>
            if strStartsWith r.file_path "/a/b" = true
            then { r with file_path := String.mk ("/a/c".data ++ r.file_path.data.drop "/a/b".data.length) }
            else r)) :=
  ⟨⟨by decide, by decide, by decide⟩,
    change_directory_path_prefix_rewrite "/a/b" "/a/c" "filesystem.db" c1Files c1DB
      (by decide) (by decide) (by decide)⟩

/-- **C8** (confirmed).  For a non-binary path, extraction with chunk size
500 returns the `[path, filename]` record followed by the chunks; there are
exactly `⌈L / 500⌉` chunks, every chunk except possibly the last has length
exactly 500, and the chunks concatenate back to the decoded content. -/
theorem get_file_data_chunk_round_trip (path : String) (content : List Char)
    (hb : is_binary_file path = false) :
    get_file_data path (some content) 500
      = [path, baseName path] ++ (chunkify 500 content).map String.mk
    ∧ (chunkify 500 content).length = (content.length + 500 - 1) / 500
    ∧ (∀ ch ∈ (chunkify 500 content).dropLast, ch.length = 500)
    ∧ (chunkify 500 content).flatten = content := by
  refine ⟨?_, ?_, ?_, ?_⟩
  · simp [get_file_data, hb]
  · exact chunkify_length 500 (by omega) content.length content le_rfl
  · exact chunkify_dropLast_length 500 (by omega) content.length content le_rfl
  · exact chunkify_flatten 500 (by omega) content.length content le_rfl

/-- **C8** (witness): a 1003-character text file yields three chunks of
sizes 500, 500, 3 that concatenate to the content. -/
theorem get_file_data_chunk_round_trip_witness :
    (is_binary_file "/root/docs/a.txt" = false)
    ∧ (get_file_data "/root/docs/a.txt" (some (List.replicate 1003 'x')) 500
        = ["/root/docs/a.txt", "a.txt"]
          ++ (chunkify 500 (List.replicate 1003 'x')).map String.mk
      ∧ (chunkify 500 (List.replicate 1003 'x')).length
        = ((List.replicate 1003 'x').length + 500 - 1) / 500
      ∧ (∀ ch ∈ (chunkify 500 (List.replicate 1003 'x')).dropLast, ch.length = 500)
      ∧ (chunkify 500 (List.replicate 1003 'x')).flatten = List.replicate 1003 'x') :=
  ⟨by decide, get_file_data_chunk_round_trip "/root/docs/a.txt"
    (List.replicate 1003 'x') (by decide)⟩

/-- **C9** (confirmed).  For a path with a recognized binary extension,
`get_file_data` returns only `[path, filename]`, with zero chunks,
regardless of the file's content. -/
theorem get_file_data_binary_opaque (path : String) (content : Option (List Char))
    (chunkSize : Nat) (hb : is_binary_file path = true) :
    get_file_data path content chunkSize = [path, baseName path] := by
  simp [get_file_data, hb]

/-- **C9** (witness): an upper-case `.PNG` path with non-empty content
yields only the two-element structured record. -/
theorem get_file_data_binary_opaque_witness :
    (is_binary_file "/root/img.PNG" = true)
    ∧ get_file_data "/root/img.PNG" (some "not really an image".data) 500
        = ["/root/img.PNG", "img.PNG"] :=
  ⟨by decide, get_file_data_binary_opaque "/root/img.PNG"
    (some "not really an image".data) 500 (by decide)⟩

/-- **C10** (confirmed).  `initialize_database(db_name)` removes the file
named by its argument when it exists, but then always connects to the
literal name `"filesystem.db"` and ensures the `file_info` and
`directory_structure` tables exist there (they are created empty when the
store is fresh).  In particular, with any argument other than
`"filesystem.db"` the argument's file is deleted and nothing is recreated at
that name. -/
theorem initialize_database_fixed_target (dbName : String) (files : Files)
    (hnv : isVectorFile (lookupFile "filesystem.db" files) = false) :
    (∃ m : MetadataDB,
      lookupFile "filesystem.db" (initialize_database dbName files).2
        = some (DbFile.meta m)
      ∧ m.hasTables = true
      ∧ ((lookupFile "filesystem.db" files = none ∨ dbName = "filesystem.db") →
          (m.file_info = [] ∧ m.directory_structure = [])))
    ∧ (dbName ≠ "filesystem.db" →
        lookupFile dbName (initialize_database dbName files).2 = none)
    ∧ (initialize_database dbName files).1 = Except.ok () := by
  by_cases hd : dbName = "filesystem.db"
  · subst hd
    have hL : lookupFile "filesystem.db" (removeFile "filesystem.db" files) = none :=
      lookupFile_removeFile_self "filesystem.db" files
    refine ⟨⟨⟨true, [], []⟩, ?_, rfl, fun _ => ⟨rfl, rfl⟩⟩, fun hcon => absurd rfl hcon, ?_⟩
    · simp only [initialize_database, sqliteConnect, hL]
      exact lookupFile_setFile_self _ _ _
    · simp only [initialize_database, sqliteConnect, hL]
  · have hRO : lookupFile "filesystem.db" (removeFile dbName files)
        = lookupFile "filesystem.db" files :=
      lookupFile_removeFile_other "filesystem.db" dbName files (Ne.symm hd)
    cases hfs : lookupFile "filesystem.db" files with
    | none =>
      have hL : lookupFile "filesystem.db" (removeFile dbName files) = none := by
        rw [hRO, hfs]
      refine ⟨⟨⟨true, [], []⟩, ?_, rfl, fun _ => ⟨rfl, rfl⟩⟩, fun _ => ?_, ?_⟩
      · simp only [initialize_database, sqliteConnect, hL]
        exact lookupFile_setFile_self _ _ _
      · simp only [initialize_database, sqliteConnect, hL]
        rw [lookupFile_setFile_other dbName "filesystem.db" _ _ hd,
          lookupFile_setFile_other dbName "filesystem.db" _ _ hd,
          lookupFile_removeFile_self]
      · simp only [initialize_database, sqliteConnect, hL]
    | some f =>
      cases f with
      | vector v =>
        rw [hfs] at hnv
        simp [isVectorFile] at hnv
      | meta m0 =>
        have hL : lookupFile "filesystem.db" (removeFile dbName files)
            = some (DbFile.meta m0) := by
          rw [hRO, hfs]
        refine ⟨⟨{ m0 with hasTables := true }, ?_, rfl, ?_⟩, fun _ => ?_, ?_⟩
        · simp only [initialize_database, sqliteConnect, hL]
          exact lookupFile_setFile_self _ _ _
        · intro hpre
          rcases hpre with h1 | h1
          · exact Option.noConfusion h1
          · exact absurd h1 hd
        · simp only [initialize_database, sqliteConnect, hL]
          rw [lookupFile_setFile_other dbName "filesystem.db" _ _ hd,
            lookupFile_removeFile_self]
        · simp only [initialize_database, sqliteConnect, hL]

/-- **C10** (witness): called with `"other.db"` while a populated store file
exists under that name, the file at `"other.db"` is gone afterwards and the
tables live in a fresh `"filesystem.db"`. -/
theorem initialize_database_fixed_target_witness :
    (isVectorFile (lookupFile "filesystem.db"
        [("other.db", DbFile.meta ⟨true, [⟨1, "/x", 0⟩], []⟩)]) = false)
    ∧ ((∃ m : MetadataDB,
        lookupFile "filesystem.db"
            (initialize_database "other.db"
              [("other.db", DbFile.meta ⟨true, [⟨1, "/x", 0⟩], []⟩)]).2
          = some (DbFile.meta m)
        ∧ m.hasTables = true
        ∧ ((lookupFile "filesystem.db"
              [("other.db", DbFile.meta ⟨true, [⟨1, "/x", 0⟩], []⟩)] = none
            ∨ "other.db" = "filesystem.db") →
            (m.file_info = [] ∧ m.directory_structure = [])))
      ∧ ("other.db" ≠ "filesystem.db" →
          lookupFile "other.db"
            (initialize_database "other.db"
              [("other.db", DbFile.meta ⟨true, [⟨1, "/x", 0⟩], []⟩)]).2 = none)
      ∧ (initialize_database "other.db"
            [("other.db", DbFile.meta ⟨true, [⟨1, "/x", 0⟩], []⟩)]).1 = Except.ok ()) :=
  ⟨by decide, initialize_database_fixed_target "other.db"
    [("other.db", DbFile.meta ⟨true, [⟨1, "/x", 0⟩], []⟩)] (by decide)⟩

/-- **C6** (confirmed).  After any of the seven `VectorStore` operations on
a collection path, the advisory lock file for that path does not exist —
whatever the arguments, the initial state, the embedding outcome, and
whether the operation returned normally or with an error.  Each operation's
`finally`-equivalent cleanup (`_delete_db_lock_file`) runs on every exit
path. -/
theorem vector_ops_lock_cleanup (dbName : String) (s : SysState)
    (emb : List String → Option (List (List Int)))
    (fileId removeId searchId : Nat) (queries : List String)
    (data : List VectorEntry) :
    lockPath dbName ∉ (initialize_vector_db dbName s).2.lockFiles
    ∧ lockPath dbName ∉ (delete_vector_db dbName s).2.lockFiles
    ∧ lockPath dbName ∉ (save emb dbName fileId queries s).2.lockFiles
    ∧ lockPath dbName ∉ (insert_file_embedding data dbName s).2.lockFiles
    ∧ lockPath dbName ∉ (search emb dbName queries s).2.lockFiles
    ∧ lockPath dbName ∉ (find_by_id searchId dbName s).2.lockFiles
    ∧ lockPath dbName ∉ (remove_by_id removeId dbName s).2.lockFiles := by
  have key : ∀ t : SysState,
      lockPath dbName ∉ (delete_db_lock_file dbName t).lockFiles := by
    intro t
    simp [delete_db_lock_file, List.mem_filter]
  exact ⟨key _, key _, key _, key _, key _, key _, key _⟩

/-- Opening a Milvus client never changes the entries of any collection
(it can only create a fresh, empty, collection-less file). -/
theorem entriesOf_connectMilvus (dbName p : String) (s : SysState) :
    entriesOf p (connectMilvus dbName s).2 = entriesOf p s := by
  unfold connectMilvus
  dsimp only
  cases hL : lookupFile dbName s.files with
  | some f => cases f <;> rfl
  | none =>
    by_cases hp : p = dbName
    · subst hp
      simp [entriesOf, lookupFile_setFile_self, hL]
    · simp [entriesOf, lookupFile_setFile_other p dbName _ _ hp]

/-- **C4** (counterexample).  The claim says a `save` whose embedding fails
surfaces the failure to the caller.  On the code the failure is only
printed: `save` returns normally (`None` in python, `Except.ok ()` here),
indistinguishable from success — even though, as the second conjunct shows,
nothing was inserted. -/
theorem save_embedding_failure_counterexample :
    (save (fun _ => none) "/d/d.db" 7 ["x"]
        ⟨[("/d/d.db", DbFile.vector ⟨true, [⟨5, [1], "w"⟩]⟩)], []⟩).1 = Except.ok ()
    ∧ entriesOf "/d/d.db"
        (save (fun _ => none) "/d/d.db" 7 ["x"]
          ⟨[("/d/d.db", DbFile.vector ⟨true, [⟨5, [1], "w"⟩]⟩)], []⟩).2
      = [⟨5, [1], "w"⟩] :=
  ⟨rfl, rfl⟩

/-- **C4** (amended).  When the embedding service fails, `save` inserts
nothing at all — every collection's entries are exactly as before, so there
is no partial insert — but the failure is only logged, not surfaced: the
call returns normally with no error signal. -/
theorem save_embedding_failure_no_insert_no_error
    (emb : List String → Option (List (List Int))) (dbName : String)
    (fileId : Nat) (queries : List String) (s : SysState)
    (hfail : emb queries = none) :
    (save emb dbName fileId queries s).1 = Except.ok ()
    ∧ ∀ p, entriesOf p (save emb dbName fileId queries s).2 = entriesOf p s := by
  have hmain : ∀ (rc : Except Err MilvusColl) (s' : SysState),
      connectMilvus dbName s = (rc, s') →
      save_body emb dbName fileId queries s = (Except.ok (), s') := by
    intro rc s' hc
    unfold save_body
    rw [hc]
    cases rc with
    | error e => rfl
    | ok c =>
      cases hcol : c.hasCollection
      · simp [hcol]
      · simp [hcol, hfail]
  have hbody := hmain (connectMilvus dbName s).1 (connectMilvus dbName s).2 rfl
  have hent : ∀ p, entriesOf p (connectMilvus dbName s).2 = entriesOf p s :=
    fun p => entriesOf_connectMilvus dbName p s
  constructor
  · show (save_body emb dbName fileId queries s).1 = Except.ok ()
    rw [hbody]
  · intro p
    show entriesOf p
      (delete_db_lock_file dbName (save_body emb dbName fileId queries s).2) = entriesOf p s
    rw [hbody]
    exact hent p

/-- **C4** (witness): the amended theorem at a concrete failing embedder and
an existing empty collection. -/
theorem save_embedding_failure_no_insert_no_error_witness :
    ((fun _ => (none : Option (List (List Int)))) ["chunk"] = none)
    ∧ ((save (fun _ => none) "/e/e.db" 9 ["chunk"]
          ⟨[("/e/e.db", DbFile.vector ⟨true, []⟩)], []⟩).1 = Except.ok ()
      ∧ ∀ p, entriesOf p (save (fun _ => none) "/e/e.db" 9 ["chunk"]
          ⟨[("/e/e.db", DbFile.vector ⟨true, []⟩)], []⟩).2
        = entriesOf p ⟨[("/e/e.db", DbFile.vector ⟨true, []⟩)], []⟩) :=
  ⟨rfl, save_embedding_failure_no_insert_no_error (fun _ => none) "/e/e.db" 9 ["chunk"]
    ⟨[("/e/e.db", DbFile.vector ⟨true, []⟩)], []⟩ rfl⟩

/-- **C5** (counterexample).  The claim says a deleted-file event for a path
with no `FileRecord` makes the handler log and return normally.  On the
code, `get_id_by_path` evaluates `rows[0][0]` on an empty result and the
`IndexError` propagates out of `on_deleted` uncaught (here:
`Except.error Err.indexError` instead of `Except.ok ()`). -/
theorem on_deleted_missing_record_counterexample :
    on_deleted false "/d/f.txt" ⟨[("filesystem.db", DbFile.meta ⟨true, [], []⟩)], []⟩
      = (Except.error Err.indexError,
         ⟨[("filesystem.db", DbFile.meta ⟨true, [], []⟩)], []⟩) :=
  rfl

/-- **C5** (amended).  For a deleted-file event on a non-ignored path with
no `FileRecord`, the handler propagates the `IndexError` raised by
`get_id_by_path` (nothing catches it), and neither store is mutated: the
state is returned exactly as it was. -/
theorem on_deleted_missing_record_raises (path : String) (s : SysState)
    (m : MetadataDB)
    (hig : should_ignore path = false)
    (hm : lookupFile "filesystem.db" s.files = some (DbFile.meta m))
    (ht : m.hasTables = true)
    (hno : m.file_info.filter (fun r => r.file_path == path) = []) :
    on_deleted false path s = (Except.error Err.indexError, s) := by
  simp [on_deleted, hig, get_id_by_path, sqliteConnect, hm, ht, hno]

/-- **C5** (witness): the amended theorem at a store that records a
different file only. -/
theorem on_deleted_missing_record_raises_witness :
    (should_ignore "/w/gone.txt" = false
      ∧ lookupFile "filesystem.db"
          (⟨[("filesystem.db", DbFile.meta ⟨true, [⟨4, "/w/other.txt", 0⟩], []⟩)], []⟩ : SysState).files
        = some (DbFile.meta ⟨true, [⟨4, "/w/other.txt", 0⟩], []⟩)
      ∧ (⟨true, [⟨4, "/w/other.txt", 0⟩], []⟩ : MetadataDB).hasTables = true
      ∧ (⟨true, [⟨4, "/w/other.txt", 0⟩], []⟩ : MetadataDB).file_info.filter
          (fun r => r.file_path == "/w/gone.txt") = [])
    ∧ on_deleted false "/w/gone.txt"
        ⟨[("filesystem.db", DbFile.meta ⟨true, [⟨4, "/w/other.txt", 0⟩], []⟩)], []⟩
      = (Except.error Err.indexError,
         ⟨[("filesystem.db", DbFile.meta ⟨true, [⟨4, "/w/other.txt", 0⟩], []⟩)], []⟩) :=
  ⟨⟨by decide, by decide, by decide, by decide⟩,
    on_deleted_missing_record_raises "/w/gone.txt"
      ⟨[("filesystem.db", DbFile.meta ⟨true, [⟨4, "/w/other.txt", 0⟩], []⟩)], []⟩
      ⟨true, [⟨4, "/w/other.txt", 0⟩], []⟩
      (by decide) (by decide) (by decide) (by decide)⟩

/-- **C2** (code bug).  Moving file `/d/f.txt` (id 7, one vector entry in
the source directory's collection `/d/d.db`): before the event there is one
entry under id 7; after `_move_file` there are zero entries under id 7 in
*every* collection.  The handler reinserts the looked-up entries into the
*source* collection and then `remove_by_id` deletes everything carrying
id 7 — the reinserted copies included — so the entries are lost rather than
relocated.  (The final `change_file_path` call also raises, see C3.) -/
theorem move_file_drops_all_entries :
    entriesWithId 7
        (⟨[("filesystem.db", DbFile.meta ⟨true, [⟨7, "/d/f.txt", 0⟩], []⟩),
           ("/d/d.db", DbFile.vector ⟨true, [⟨7, [1, 2], "hello"⟩]⟩)], []⟩ : SysState)
      = [⟨7, [1, 2], "hello"⟩]
    ∧ entriesWithId 7 (move_file "/d/f.txt" "/e/f.txt"
        ⟨[("filesystem.db", DbFile.meta ⟨true, [⟨7, "/d/f.txt", 0⟩], []⟩),
          ("/d/d.db", DbFile.vector ⟨true, [⟨7, [1, 2], "hello"⟩]⟩)], []⟩).2 = []
    ∧ (move_file "/d/f.txt" "/e/f.txt"
        ⟨[("filesystem.db", DbFile.meta ⟨true, [⟨7, "/d/f.txt", 0⟩], []⟩),
          ("/d/d.db", DbFile.vector ⟨true, [⟨7, [1, 2], "hello"⟩]⟩)], []⟩).1
      = Except.error Err.sqliteError :=
  ⟨rfl, rfl, rfl⟩

/-- **C3** (code bug).  In `_move_file` the final `change_file_path(src,
dest, db_name)` call receives the *vector-collection* path
(`/x/x.db`) as the sqlite database name, not `filesystem.db`: the metadata
record keeps its old path, `get_id_by_path(dest)` still raises
`IndexError` afterwards (while it succeeded for `src` before), and the
mis-directed `UPDATE` itself raises. -/
theorem move_file_metadata_not_renamed :
    (get_id_by_path "/x/a.md" "filesystem.db"
        (⟨[("filesystem.db", DbFile.meta ⟨true, [⟨3, "/x/a.md", 0⟩], []⟩),
           ("/x/x.db", DbFile.vector ⟨true, [⟨3, [5], "hi"⟩]⟩)], []⟩ : SysState).files).1
      = Except.ok 3
    ∧ lookupFile "filesystem.db" (move_file "/x/a.md" "/x/b.md"
        ⟨[("filesystem.db", DbFile.meta ⟨true, [⟨3, "/x/a.md", 0⟩], []⟩),
          ("/x/x.db", DbFile.vector ⟨true, [⟨3, [5], "hi"⟩]⟩)], []⟩).2.files
      = some (DbFile.meta ⟨true, [⟨3, "/x/a.md", 0⟩], []⟩)
    ∧ (get_id_by_path "/x/b.md" "filesystem.db" (move_file "/x/a.md" "/x/b.md"
        ⟨[("filesystem.db", DbFile.meta ⟨true, [⟨3, "/x/a.md", 0⟩], []⟩),
          ("/x/x.db", DbFile.vector ⟨true, [⟨3, [5], "hi"⟩]⟩)], []⟩).2.files).1
      = Except.error Err.indexError
    ∧ (move_file "/x/a.md" "/x/b.md"
        ⟨[("filesystem.db", DbFile.meta ⟨true, [⟨3, "/x/a.md", 0⟩], []⟩),
          ("/x/x.db", DbFile.vector ⟨true, [⟨3, [5], "hi"⟩]⟩)], []⟩).1
      = Except.error Err.sqliteError :=
  ⟨rfl, rfl, rfl, rfl⟩

/-- **C7** (counterexample).  The claim says the result covers the top-2
matches of *every* query, as file ids.  With two queries, the second query's
nearest match is the entry with id 3 (path `/m/c`), yet the result —
`res[0]` only, and mapped to *paths*, not ids — is `["/m/a", "/m/b"]`,
which does not contain it. -/
theorem search_first_query_only_counterexample :
    (search (fun qs => some (qs.map (fun q => if q = "q1" then ([0] : List Int) else [20])))
        "/m/m.db" ["q1", "q2"]
        ⟨[("filesystem.db",
            DbFile.meta ⟨true, [⟨1, "/m/a", 0⟩, ⟨2, "/m/b", 0⟩, ⟨3, "/m/c", 0⟩], []⟩),
          ("/m/m.db",
            DbFile.vector ⟨true, [⟨1, [0], "aa"⟩, ⟨2, [10], "bb"⟩, ⟨3, [20], "cc"⟩]⟩)],
         []⟩).1
      = Except.ok ["/m/a", "/m/b"]
    ∧ topIds [20] 2 [⟨1, [0], "aa"⟩, ⟨2, [10], "bb"⟩, ⟨3, [20], "cc"⟩] = [3, 2]
    ∧ (get_path_by_id 3 "filesystem.db"
        [("filesystem.db",
            DbFile.meta ⟨true, [⟨1, "/m/a", 0⟩, ⟨2, "/m/b", 0⟩, ⟨3, "/m/c", 0⟩], []⟩),
          ("/m/m.db",
            DbFile.vector ⟨true, [⟨1, [0], "aa"⟩, ⟨2, [10], "bb"⟩, ⟨3, [20], "cc"⟩]⟩)]).1
      = Except.ok "/m/c"
    ∧ "/m/c" ∉ (["/m/a", "/m/b"] : List String) :=
  ⟨rfl, rfl, rfl, by decide⟩

/-- **C7** (amended).  When the collection exists and the embedder succeeds
on a non-empty query list, `search` returns the top-2 nearest ids *of the
first query only*, mapped to file paths through the metadata store (not the
per-query flattened id sequence of the claim). -/
theorem search_returns_first_query_paths
    (emb : List String → Option (List (List Int))) (dbName : String)
    (qs : List String) (s : SysState) (c : MilvusColl)
    (v : List Int) (vs : List (List Int))
    (hf : lookupFile dbName s.files = some (DbFile.vector c))
    (hc : c.hasCollection = true)
    (he : emb qs = some (v :: vs)) :
    (search emb dbName qs s).1 = (getPaths (topIds v 2 c.entries) s.files).1 := by
  show (search_body emb dbName qs s).1 = _
  unfold search_body connectMilvus
  dsimp only
  rw [hf, he]
  simp only [hc, if_true, List.map]
  rcases hg : getPaths (topIds v 2 c.entries) s.files with ⟨r, files'⟩
  cases r <;> rfl

/-- **C7** (witness): the amended theorem at a two-entry collection and a
two-query list. -/
theorem search_returns_first_query_paths_witness :
    (lookupFile "/n/n.db"
        (⟨[("filesystem.db", DbFile.meta ⟨true, [⟨1, "/n/a", 0⟩, ⟨2, "/n/b", 0⟩], []⟩),
           ("/n/n.db", DbFile.vector ⟨true, [⟨1, [2], "x"⟩, ⟨2, [7], "y"⟩]⟩)], []⟩ : SysState).files
        = some (DbFile.vector ⟨true, [⟨1, [2], "x"⟩, ⟨2, [7], "y"⟩]⟩)
      ∧ (⟨true, [⟨1, [2], "x"⟩, ⟨2, [7], "y"⟩]⟩ : MilvusColl).hasCollection = true
      ∧ (fun qs => some (qs.map (fun q => if q = "alpha" then ([2] : List Int) else [7])))
          ["alpha", "beta"] = some ([2] :: [[7]]))
    ∧ (search (fun qs => some (qs.map (fun q => if q = "alpha" then ([2] : List Int) else [7])))
          "/n/n.db" ["alpha", "beta"]
          ⟨[("filesystem.db", DbFile.meta ⟨true, [⟨1, "/n/a", 0⟩, ⟨2, "/n/b", 0⟩], []⟩),
            ("/n/n.db", DbFile.vector ⟨true, [⟨1, [2], "x"⟩, ⟨2, [7], "y"⟩]⟩)], []⟩).1
      = (getPaths (topIds [2] 2 (⟨true, [⟨1, [2], "x"⟩, ⟨2, [7], "y"⟩]⟩ : MilvusColl).entries)
          (⟨[("filesystem.db", DbFile.meta ⟨true, [⟨1, "/n/a", 0⟩, ⟨2, "/n/b", 0⟩], []⟩),
             ("/n/n.db", DbFile.vector ⟨true, [⟨1, [2], "x"⟩, ⟨2, [7], "y"⟩]⟩)], []⟩ : SysState).files).1 :=
  ⟨⟨by decide, rfl, rfl⟩,
    search_returns_first_query_paths
      (fun qs => some (qs.map (fun q => if q = "alpha" then ([2] : List Int) else [7])))
      "/n/n.db" ["alpha", "beta"]
      ⟨[("filesystem.db", DbFile.meta ⟨true, [⟨1, "/n/a", 0⟩, ⟨2, "/n/b", 0⟩], []⟩),
        ("/n/n.db", DbFile.vector ⟨true, [⟨1, [2], "x"⟩, ⟨2, [7], "y"⟩]⟩)], []⟩
      ⟨true, [⟨1, [2], "x"⟩, ⟨2, [7], "y"⟩]⟩ [2] [[7]]
      (by decide) rfl rfl⟩

end MAFM
